import Mathlib

/-!
Verification of the Tool Invocation Router & System Automation Executor of the
raycast-mcp-server repository, as a shallow embedding in Lean 4.

The embedding translates the JavaScript/TypeScript sources
(`dist/handlers.js`, `tools.js`, `src/auth.ts`, `src/index.ts`) into pure Lean
functions.  External effects (process spawns through `execAsync`, URL-scheme
triggers through `triggerRaycastURL`, `openRaycast`, network fetches,
`JSON.parse`, the current time) are modelled by an explicit environment
(`Env`) of oracles; each handler returns the list of external automation
invocations it performed (`List Invoc`) together with the protocol response
(`ToolResponse`).  JavaScript value coercions that the source relies on
(truthiness of optional strings, stringification of `undefined`, `x || y`
defaulting) are modelled by the `tru`, `jsStr`, `jsOrS` helpers.
-/

/-- The uniform response envelope `{content:[{type:'text',text}], isError?}`.
`isError` absent in the source is modelled as `isError = false`. -/
structure ToolResponse where
  text : String
  isError : Bool
deriving DecidableEq, Repr

/-- One external automation invocation, tagged by the call site in the source:
`Invoc.url` for `triggerRaycastURL(url)` (which runs `open "<url>"`),
`Invoc.openApp` for `openRaycast()` (which runs `open -a Raycast`),
`Invoc.exec` for a direct `execAsync(cmd)` in a handler, and
`Invoc.confirmDialog` for the `execAsync` that shows the confirmation dialog in
`handleRaycastSystem`. -/
inductive Invoc where
  | url (u : String)
  | openApp
  | exec (cmd : String)
  | confirmDialog (cmd : String)
deriving DecidableEq, Repr

/-- Truthiness of a possibly-absent JavaScript string: `undefined` and the
empty string are falsy, every other string is truthy. -/
def tru : Option String → Bool
  | none => false
  | some s => decide (s ≠ "")

/-- JavaScript stringification of a possibly-absent string, as performed by
template literals: `undefined` renders as `"undefined"`. -/
def jsStr : Option String → String
  | none => "undefined"
  | some s => s

/-- JavaScript `x || d` for an optional string `x` and a (truthy) default
`d`: falsy `x` (absent or empty) yields `d`. -/
def jsOrS (x : Option String) (d : String) : String :=
  if tru x then x.getD "" else d

/-- JavaScript `x || y` for two optional strings, rendered in a template
literal: if `x` is truthy it is used, otherwise `y` is stringified. -/
def jsOr2 (x y : Option String) : String :=
  if tru x then x.getD "" else jsStr y

/-- JavaScript `toLowerCase`, character by character. -/
def jsToLower (s : String) : String :=
  String.mk (s.data.map Char.toLower)

/-- JavaScript `split('+')` at the character level: groups between `+`
separators, empty groups included. -/
def splitPlus : List Char → List (List Char)
  | [] => [[]]
  | c :: rest =>
      match splitPlus rest with
      | [] => [[]]
      | g :: gs => if c = '+' then [] :: g :: gs else (c :: g) :: gs

/-- Whitespace stripped from both ends of a character list. -/
def trimChars (cs : List Char) : List Char :=
  ((cs.dropWhile Char.isWhitespace).reverse.dropWhile Char.isWhitespace).reverse

/-- JavaScript `trim`, character by character. -/
def jsTrim (s : String) : String :=
  String.mk (trimChars s.data)

/-- The package-manifest fields the `publish` action of
`handleExtensionsTool` inspects (`name`, `title`, `description`, `author`,
`license`), each possibly absent. -/
structure PkgFields where
  name : Option String := none
  title : Option String := none
  description : Option String := none
  author : Option String := none
  license : Option String := none
deriving DecidableEq, Repr

/-- A parsed `package.json` as consumed by the `publish` action: the
top-level fields plus the optional `raycast` sub-object. -/
structure Manifest where
  fields : PkgFields := {}
  raycast : Option PkgFields := none
deriving DecidableEq, Repr

/-- One workflow step as accepted by `handleWorkflowsTool` `create`.
`parameters` is modelled as a flat string-to-string JSON object. -/
structure WStep where
  type : Option String := none
  action : Option String := none
  parameters : Option (List (String × String)) := none
deriving DecidableEq, Repr

/-- The oracle environment supplying outcomes of the external world:
`run k` is the outcome of the `k`-th external invocation performed by the
handler on the path taken (`.ok stdout` for a resolved `execAsync`/`open`,
`.error message` for a rejected one); `fetch` is the network result used by
`validateCredentials`; `github` is the decoded GitHub user `(login, name)`
for the `github-status` workflow; `parseJson` models `JSON.parse` for the
`publish` action; `now` models `new Date().toISOString()`. -/
structure Env where
  run : Nat → Except String String
  fetch : Except String String := .error "network unavailable"
  github : Except String (String × String) := .error "network unavailable"
  parseJson : String → Except String Manifest := fun _ => .error "Unexpected end of JSON input"
  now : String := ""

/-- An environment in which every external invocation resolves with the
given stdout. -/
def envWith (stdout : String) : Env :=
  { run := fun _ => .ok stdout }

/-- The loosely-typed argument bag of a tool call, with one optional slot per
property any of the nine tools reads.  `cmdArgs` is the `args` property of
`raycast_open`; `func` is the `function` property of `raycast_system`. -/
structure Args where
  query : Option String := none
  execute : Option Bool := none
  command : Option String := none
  extension : Option String := none
  cmdArgs : Option String := none
  action : Option String := none
  text : Option String := none
  index : Option Nat := none
  shortcut : Option String := none
  custom_key : Option String := none
  func : Option String := none
  confirm : Option Bool := none
  service : Option String := none
  extension_id : Option String := none
  publish_path : Option String := none
  name : Option String := none
  steps : Option (List WStep) := none
  trigger : Option String := none

/-- Hexadecimal digit (uppercase, as produced by `encodeURIComponent`). -/
def hexDigitChar (n : Nat) : Char :=
  if n < 10 then Char.ofNat (48 + n) else Char.ofNat (55 + n)

/-- The UTF-8 bytes of a Unicode scalar value. -/
def utf8Bytes (c : Char) : List Nat :=
  let n := c.toNat
  if n < 128 then [n]
  else if n < 2048 then [192 + n / 64, 128 + n % 64]
  else if n < 65536 then [224 + n / 4096, 128 + (n / 64) % 64, 128 + n % 64]
  else [240 + n / 262144, 128 + (n / 4096) % 64, 128 + (n / 64) % 64, 128 + n % 64]

/-- `%XX` percent-encoding of one byte. -/
def percentEncodeByte (b : Nat) : String :=
  String.mk ['%', hexDigitChar (b / 16), hexDigitChar (b % 16)]

/-- The characters `encodeURIComponent` leaves unescaped:
`A-Z a-z 0-9 - _ . ! ~ * ' ( )`. -/
def uriUnreservedChar (c : Char) : Bool :=
  (65 ≤ c.toNat && c.toNat ≤ 90) || (97 ≤ c.toNat && c.toNat ≤ 122) ||
  (48 ≤ c.toNat && c.toNat ≤ 57) ||
  c = '-' || c = '_' || c = '.' || c = '!' || c = '~' || c = '*' ||
  c.toNat = 39 || c = '(' || c = ')'

/-- JavaScript `encodeURIComponent`: unreserved characters pass through,
every other character is replaced by the percent-encoding of its UTF-8
bytes. -/
def encodeURIComponent (s : String) : String :=
  s.data.foldl
    (fun acc c =>
      acc ++ (if uriUnreservedChar c then String.mk [c]
              else String.join ((utf8Bytes c).map percentEncodeByte)))
    ""

/-- The `systemCommands` table of `handleRaycastSystem`
(`dist/handlers.js` lines 278-286). -/
def systemCommands (f : String) : Option String :=
  match f with
  | "sleep" => some "pmset sleepnow"
  | "restart" => some "sudo shutdown -r now"
  | "shutdown" => some "sudo shutdown -h now"
  | "lock" =>
      some "/System/Library/CoreServices/Menu\\ Extras/User.menu/Contents/Resources/CGSession -suspend"
  | "logout" => some "osascript -e \"tell application \\\"System Events\\\" to log out\""
  | "empty-trash" => some "osascript -e \"tell application \\\"Finder\\\" to empty the trash\""
  | "eject-all" => some "osascript -e \"tell application \\\"Finder\\\" to eject the disks\""
  | _ => none

/-- The destructive system functions gated by confirmation
(`dist/handlers.js` line 295). -/
def destructiveFuncs : List String :=
  ["restart", "shutdown", "logout", "empty-trash"]

/-- The AppleScript confirmation dialog template of `handleRaycastSystem`
(`dist/handlers.js` lines 296-305), with `${func}` interpolated. -/
def confirmScript (f : String) : String :=
  "\n        tell application \"System Events\"\n          display dialog \"Are you sure you want to "
  ++ f ++
  "?\" buttons \x7b\"Cancel\", \"OK\"\x7d default button \"Cancel\"\n          if button returned of result is \"OK\" then\n            return \"confirmed\"\n          else\n            return \"cancelled\"\n          end if\n        end tell\n      "

/-- `handleRaycastSystem` (`dist/handlers.js` lines 275-328): resolves the
system function against `systemCommands`, shows the confirmation dialog for
destructive functions unless `confirm` is `false`, proceeds only when the
dialog's trimmed stdout is exactly `"confirmed"`, then executes the resolved
command.  `env.run 0` is the dialog outcome when the gate runs, and the next
`env.run` slot is the outcome of the system command itself. -/
def handleRaycastSystem (a : Args) (env : Env) : List Invoc × ToolResponse :=
  let f := jsStr a.func
  let confirm := a.confirm.getD true
  match systemCommands f with
  | none => ([], ⟨"❌ Unknown system function: " ++ f, true⟩)
  | some command =>
    let runCmd := fun (k : Nat) (pre : List Invoc) =>
      match env.run k with
      | .error m => (pre ++ [Invoc.exec command], ⟨"❌ System function failed: " ++ m, true⟩)
      | .ok _ =>
          (pre ++ [Invoc.exec command],
           ⟨"🔧 System " ++ f.toUpper ++ "\n\n✅ System function executed successfully", false⟩)
    if confirm && destructiveFuncs.contains f then
      let dialogCmd := "osascript -e '" ++ confirmScript f ++ "'"
      match env.run 0 with
      | .error m => ([Invoc.confirmDialog dialogCmd], ⟨"❌ System function failed: " ++ m, true⟩)
      | .ok out =>
          if jsTrim out ≠ "confirmed" then
            ([Invoc.confirmDialog dialogCmd], ⟨"❌ System " ++ f ++ " cancelled by user", false⟩)
          else
            runCmd 1 [Invoc.confirmDialog dialogCmd]
    else
      runCmd 0 []

/-- The AppleScript template of `handleRaycastSearch`
(`dist/handlers.js` lines 41-51), with `${query}` and the `execute`
conditional interpolated. -/
def searchAppleScript (query : String) (execute : Bool) : String :=
  "\n      tell application \"Raycast\"\n        activate\n        delay 0.5\n      end tell\n      \n      tell application \"System Events\"\n        keystroke \"" ++
  query ++ "\"\n        " ++
  (if execute then "delay 0.5\nkey code 36" else "") ++
  "\n      end tell\n    "

/-- `handleRaycastSearch` (`dist/handlers.js` lines 34-66): triggers the
`raycast://script-commands/search` URL with the URL-encoded query, then runs
an AppleScript that keystrokes the raw query.  A missing `query` is coerced
to the string `"undefined"` by the JavaScript template literals (and by
`encodeURIComponent`); the handler performs no presence check. -/
def handleRaycastSearch (a : Args) (env : Env) : List Invoc × ToolResponse :=
  let q := jsStr a.query
  let execute := a.execute.getD false
  let u := "raycast://script-commands/search?query=" ++ encodeURIComponent q
  match env.run 0 with
  | .error m => ([Invoc.url u], ⟨"❌ Raycast search failed: " ++ m, true⟩)
  | .ok _ =>
    let cmd := "osascript -e '" ++ searchAppleScript q execute ++ "'"
    match env.run 1 with
    | .error m => ([Invoc.url u, Invoc.exec cmd], ⟨"❌ Raycast search failed: " ++ m, true⟩)
    | .ok _ =>
        ([Invoc.url u, Invoc.exec cmd],
         ⟨"🔍 Raycast Search: \"" ++ q ++ "\"" ++
          (if execute then " (executed first result)" else "") ++
          "\n\n✅ Raycast opened with search query", false⟩)

/-- The `commandMap` table of `handleRaycastOpen`
(`dist/handlers.js` lines 73-82). -/
def commandMap (c : String) : Option String :=
  match c with
  | "clipboard-history" => some "extensions/raycast/clipboard-history/clipboard-history"
  | "emoji" => some "extensions/raycast/emoji-symbols/emoji-symbols"
  | "calculator" => some "extensions/raycast/calculator/calculator"
  | "calendar" => some "extensions/raycast/calendar/my-schedule"
  | "contacts" => some "extensions/raycast/contacts/search-contacts"
  | "reminders" => some "extensions/raycast/apple-reminders/create-reminder"
  | "notes" => some "extensions/raycast/apple-notes/search-notes"
  | "safari-bookmarks" => some "extensions/raycast/safari/search-bookmarks"
  | _ => none

/-- The `raycast://` URL `handleRaycastOpen` resolves for a truthy `command`
argument: the `commandMap` entry, or the generic `extensions/<command>`
fallback, plus the URL-encoded `args` parameter when present. -/
def openCommandURL (command : String) (cmdArgs : Option String) : String :=
  "raycast://" ++ ((commandMap command).getD ("extensions/" ++ command)) ++
  (if tru cmdArgs then "?arguments=" ++ encodeURIComponent (cmdArgs.getD "") else "")

/-- `handleRaycastOpen` (`dist/handlers.js` lines 67-112): a truthy
`command` resolves through `commandMap` (falling back to
`extensions/<command>`), a truthy `extension` resolves to
`extensions/<extension>`, and with neither the bare Raycast app is opened. -/
def handleRaycastOpen (a : Args) (env : Env) : List Invoc × ToolResponse :=
  if tru a.command then
    let u := openCommandURL (a.command.getD "") a.cmdArgs
    match env.run 0 with
    | .error m => ([Invoc.url u], ⟨"❌ Raycast command failed: " ++ m, true⟩)
    | .ok _ =>
        ([Invoc.url u],
         ⟨"🚀 Raycast Command: " ++ jsOr2 a.command a.extension ++
          "\n\n✅ Command executed successfully", false⟩)
  else if tru a.extension then
    let u := "raycast://extensions/" ++ a.extension.getD ""
    match env.run 0 with
    | .error m => ([Invoc.url u], ⟨"❌ Raycast command failed: " ++ m, true⟩)
    | .ok _ =>
        ([Invoc.url u],
         ⟨"🚀 Raycast Command: " ++ jsOr2 a.command a.extension ++
          "\n\n✅ Command executed successfully", false⟩)
  else
    match env.run 0 with
    | .error m => ([Invoc.openApp], ⟨"❌ Raycast command failed: " ++ m, true⟩)
    | .ok _ => ([Invoc.openApp], ⟨"🚀 Raycast opened", false⟩)

/-- The AppleScript of the clipboard `clear` action
(`dist/handlers.js` lines 122-137). -/
def clearScript : String :=
  "\n          tell application \"Raycast\"\n            activate\n          end tell\n          tell application \"System Events\"\n            keystroke \",\" using command down\n            delay 1\n            keystroke \"clipboard\"\n            delay 0.5\n            key code 36\n            delay 0.5\n            keystroke \"Clear History\"\n            delay 0.5\n            key code 36\n          end tell\n        "

/-- The shell command of the clipboard `copy` action
(`dist/handlers.js` line 147): the text is interpolated verbatim into a
double-quoted `echo`, with no shell escaping. -/
def clipCopyCmd (text : String) : String :=
  "echo \"" ++ text ++ "\" | pbcopy"

/-- `handleRaycastClipboard` (`dist/handlers.js` lines 113-174).  The
`switch` over `action` has no default case: an action outside
`{show, clear, copy, paste}` falls through to the success response without
any invocation.  A missing `action` reaches `action.toUpperCase()` in the
response template and throws a `TypeError`, converted by the handler's
`catch` into an error response. -/
def handleRaycastClipboard (a : Args) (env : Env) : List Invoc × ToolResponse :=
  match a.action with
  | none =>
      ([], ⟨"❌ Clipboard action failed: Cannot read properties of undefined (reading 'toUpperCase')", true⟩)
  | some act =>
    let fail := fun (pre : List Invoc) (m : String) =>
      (pre, ⟨"❌ Clipboard action failed: " ++ m, true⟩)
    let done := fun (pre : List Invoc) =>
      (pre,
       ⟨"📋 Clipboard " ++ act.toUpper ++
        (if tru a.text then ": \"" ++ a.text.getD "" ++ "\"" else "") ++
        (if a.index.isSome then " (item " ++ toString (a.index.getD 0) ++ ")" else "") ++
        "\n\n✅ Action completed successfully", false⟩)
    if act = "show" then
      let u := "raycast://extensions/raycast/clipboard-history/clipboard-history"
      match env.run 0 with
      | .error m => fail [Invoc.url u] m
      | .ok _ => done [Invoc.url u]
    else if act = "clear" then
      let cmd := "osascript -e '" ++ clearScript ++ "'"
      match env.run 0 with
      | .error m => fail [Invoc.exec cmd] m
      | .ok _ => done [Invoc.exec cmd]
    else if act = "copy" then
      if !(tru a.text) then
        ([], ⟨"❌ Text is required for copy action", true⟩)
      else
        let cmd := clipCopyCmd (a.text.getD "")
        match env.run 0 with
        | .error m => fail [Invoc.exec cmd] m
        | .ok _ => done [Invoc.exec cmd]
    else if act = "paste" then
      match a.index with
      | some idx =>
        let u := "raycast://extensions/raycast/clipboard-history/clipboard-history"
        let c1 := "osascript -e 'tell application \"System Events\" to key code 125 repeat " ++
          toString idx ++ " times'"
        let c2 := "osascript -e 'tell application \"System Events\" to key code 36'"
        match env.run 0 with
        | .error m => fail [Invoc.url u] m
        | .ok _ =>
          match env.run 1 with
          | .error m => fail [Invoc.url u, Invoc.exec c1] m
          | .ok _ =>
            match env.run 2 with
            | .error m => fail [Invoc.url u, Invoc.exec c1, Invoc.exec c2] m
            | .ok _ => done [Invoc.url u, Invoc.exec c1, Invoc.exec c2]
      | none =>
        let cmd := "osascript -e 'tell application \"System Events\" to keystroke \"v\" using command down'"
        match env.run 0 with
        | .error m => fail [Invoc.exec cmd] m
        | .ok _ => done [Invoc.exec cmd]
    else
      done []

/-- The recognized modifier tokens of a custom key combination
(`dist/handlers.js` lines 181-182). -/
def modList : List String := ["cmd", "shift", "alt", "ctrl"]

/-- Tokenization of a custom key combination
(`dist/handlers.js` line 180): lower-case, split on `+`, trim each token. -/
def customKeyTokens (ck : String) : List String :=
  (splitPlus (jsToLower ck).data).map (fun g => String.mk (trimChars g))

/-- The `modifiers` list of `handleRaycastShortcut`: the tokens that are
recognized modifiers. -/
def customKeyModifiers (ck : String) : List String :=
  (customKeyTokens ck).filter (fun k => modList.contains k)

/-- The `key` of `handleRaycastShortcut` (`dist/handlers.js` line 182): the
first token that is not a recognized modifier (`undefined` when every token
is a modifier). -/
def customKeyKey (ck : String) : Option String :=
  (customKeyTokens ck).find? (fun k => !(modList.contains k))

/-- The `modifierString` of `handleRaycastShortcut`
(`dist/handlers.js` lines 183-192): AppleScript modifier names appended in
the fixed order command, shift, option, control, then the trailing
comma-space removed by `slice(0, -2)`. -/
def appleModifierString (ck : String) : String :=
  ((if (customKeyModifiers ck).contains "cmd" then "command down, " else "") ++
   (if (customKeyModifiers ck).contains "shift" then "shift down, " else "") ++
   (if (customKeyModifiers ck).contains "alt" then "option down, " else "") ++
   (if (customKeyModifiers ck).contains "ctrl" then "control down, " else "")).dropRight 2

/-- The resolved AppleScript payload for a custom key combination
(`dist/handlers.js` line 193). -/
def customShortcutScript (ck : String) : String :=
  "tell application \"System Events\" to keystroke \"" ++ jsStr (customKeyKey ck) ++
  "\" using \x7b" ++ appleModifierString ck ++ "\x7d"

/-- The predefined `shortcuts` table of `handleRaycastShortcut`
(`dist/handlers.js` lines 198-205). -/
def shortcutsTable (s : String) : Option String :=
  match s with
  | "main-window" => some "raycast://"
  | "clipboard-history" => some "raycast://extensions/raycast/clipboard-history/clipboard-history"
  | "emoji" => some "raycast://extensions/raycast/emoji-symbols/emoji-symbols"
  | "calculator" => some "raycast://extensions/raycast/calculator/calculator"
  | "screenshot" => some "raycast://extensions/raycast/screenshot/screenshot"
  | "timer" => some "raycast://extensions/raycast/timer/timer"
  | _ => none

/-- `handleRaycastShortcut` (`dist/handlers.js` lines 175-230): a truthy
`custom_key` is parsed and executed as an AppleScript keystroke; otherwise a
truthy `shortcut` is looked up in the predefined table (unknown names are an
error); with neither argument the handler skips both branches and returns
the success response unchanged. -/
def handleRaycastShortcut (a : Args) (env : Env) : List Invoc × ToolResponse :=
  let success := fun (pre : List Invoc) =>
    (pre,
     ⟨"⌨️ Shortcut Triggered: " ++ jsOr2 a.shortcut a.custom_key ++
      "\n\n✅ Shortcut executed successfully", false⟩)
  if tru a.custom_key then
    let cmd := "osascript -e '" ++ customShortcutScript (a.custom_key.getD "") ++ "'"
    match env.run 0 with
    | .error m => ([Invoc.exec cmd], ⟨"❌ Shortcut execution failed: " ++ m, true⟩)
    | .ok _ => success [Invoc.exec cmd]
  else if tru a.shortcut then
    match shortcutsTable (a.shortcut.getD "") with
    | some u =>
      match env.run 0 with
      | .error m => ([Invoc.url u], ⟨"❌ Shortcut execution failed: " ++ m, true⟩)
      | .ok _ => success [Invoc.url u]
    | none => ([], ⟨"❌ Unknown shortcut: " ++ a.shortcut.getD "", true⟩)
  else
    success []

/-- The AppleScript of the window `toggle` action
(`dist/handlers.js` lines 241-253). -/
def toggleScript : String :=
  "\n            if application \"Raycast\" is running then\n              tell application \"System Events\"\n                if (name of processes) contains \"Raycast\" then\n                  tell application \"Raycast\" to set visible to not visible\n                else\n                  tell application \"Raycast\" to activate\n                end if\n              end tell\n            else\n              tell application \"Raycast\" to activate\n            end if\n          "

/-- The `windowScript` switch of `handleRaycastWindow`
(`dist/handlers.js` lines 234-259); `none` models the thrown
`Unknown window action` error of the default case. -/
def windowScript (action : String) : Option String :=
  match action with
  | "show" => some "tell application \"Raycast\" to activate"
  | "hide" => some "tell application \"Raycast\" to set visible to false"
  | "toggle" => some toggleScript
  | "focus" => some "tell application \"Raycast\" to activate"
  | _ => none

/-- `handleRaycastWindow` (`dist/handlers.js` lines 231-274). -/
def handleRaycastWindow (a : Args) (env : Env) : List Invoc × ToolResponse :=
  match windowScript (jsStr a.action) with
  | none => ([], ⟨"❌ Window action failed: Unknown window action: " ++ jsStr a.action, true⟩)
  | some script =>
    let cmd := "osascript -e '" ++ script ++ "'"
    match env.run 0 with
    | .error m => ([Invoc.exec cmd], ⟨"❌ Window action failed: " ++ m, true⟩)
    | .ok _ =>
        ([Invoc.exec cmd],
         ⟨"🪟 Window " ++ (a.action.getD "").toUpper ++
          "\n\n✅ Window action completed successfully", false⟩)

/-- The timeout message of `executeRaycastCommand` (`tools.js` line 131). -/
def timeoutMessage : String :=
  "Raycast operation timed out. This may be normal for complex AppleScript operations. Operation was attempted but may need manual verification."

/-- The result shape of `executeRaycastCommand` as declared in
`tools.d.ts`: `{stdout: string, stderr: string}` — there is no further
field. -/
structure ExecResult where
  stdout : String
  stderr : String
deriving DecidableEq, Repr

/-- The outcome of the underlying `execAsync(command, {timeout: 60000})`
call: resolution with stdout/stderr, or rejection with an error carrying an
optional `code` and `message`.  A timeout is the rejection whose `code` is
`'ETIMEDOUT'`, the condition `executeRaycastCommand` tests. -/
inductive ExecOutcome where
  | ok (stdout stderr : String)
  | err (code : Option String) (message : Option String)
deriving DecidableEq, Repr

/-- `executeRaycastCommand` (`tools.js` lines 122-139): never rethrows; a
timeout rejection yields `{stdout:'', stderr:<timeout message>}`, any other
rejection yields `{stdout:'', stderr: error.message || '<generic message>'}`. -/
def executeRaycastCommand : ExecOutcome → ExecResult
  | .ok stdout stderr => ⟨stdout, stderr⟩
  | .err code message =>
      if code = some "ETIMEDOUT" then ⟨"", timeoutMessage⟩
      else ⟨"", jsOrS message "Raycast command execution failed"⟩

/-- The `AuthConfig` credential record (`src/auth.ts` lines 6-15), as held
in the private `config` field of `RaycastAuth`. -/
structure AuthConfig where
  raycastApiKey : Option String := none
  raycastTeamId : Option String := none
  githubToken : Option String := none
  notionToken : Option String := none
  figmaToken : Option String := none
  slackToken : Option String := none
  linearToken : Option String := none
  jiraToken : Option String := none
deriving DecidableEq, Repr

/-- A configuration with no credentials at all. -/
def cfgEmpty : AuthConfig := {}

/-- The `serviceMap` of `RaycastAuth.hasCredentials` and
`RaycastAuth.getCredential` (`src/auth.ts` lines 58-66 and 74-82): the seven
known services mapped to their config key. -/
def serviceMap (service : String) : Option (AuthConfig → Option String) :=
  match service with
  | "raycast" => some (fun c => c.raycastApiKey)
  | "github" => some (fun c => c.githubToken)
  | "notion" => some (fun c => c.notionToken)
  | "figma" => some (fun c => c.figmaToken)
  | "slack" => some (fun c => c.slackToken)
  | "linear" => some (fun c => c.linearToken)
  | "jira" => some (fun c => c.jiraToken)
  | _ => none

/-- `RaycastAuth.hasCredentials` (`src/auth.ts` lines 57-70):
`key ? !!this.config[key] : false`, where `!!` is string truthiness. -/
def hasCredentials (cfg : AuthConfig) (service : String) : Bool :=
  match serviceMap service with
  | some key => tru (key cfg)
  | none => false

/-- `RaycastAuth.getCredential` (`src/auth.ts` lines 73-86):
`key ? this.config[key] : undefined`. -/
def getCredential (cfg : AuthConfig) (service : String) : Option String :=
  match serviceMap service with
  | some key => key cfg
  | none => none

/-- The result of `RaycastAuth.validateCredentials`; the fetched user object
is modelled by its rendered JSON text. -/
structure ValidationResult where
  valid : Bool
  user : Option String := none
  error : Option String := none
deriving DecidableEq, Repr

/-- `RaycastAuth.validateCredentials` (`src/auth.ts` lines 89-130): no
truthy token yields `No credentials found`; validators exist only for
github, notion and figma (their network outcome is the `fetched` oracle, a
thrown fetch error being caught into `{valid:false, error}`); every other
service yields `Validation not implemented for this service`. -/
def validateCredentials (cfg : AuthConfig) (service : String)
    (fetched : Except String String) : ValidationResult :=
  if !(tru (getCredential cfg service)) then
    { valid := false, error := some "No credentials found" }
  else if ["github", "notion", "figma"].contains service then
    match fetched with
    | .ok user => { valid := true, user := some user }
    | .error m => { valid := false, error := some m }
  else
    { valid := false, error := some "Validation not implemented for this service" }

/-- The `oauthUrls` table of `RaycastAuth.initiateOAuth`
(`src/auth.ts` lines 36-43). -/
def oauthUrls (service : String) : Option String :=
  match service with
  | "github" => some "https://github.com/login/oauth/authorize?client_id=YOUR_CLIENT_ID&scope=repo,user"
  | "notion" => some "https://api.notion.com/v1/oauth/authorize?client_id=YOUR_CLIENT_ID&response_type=code"
  | "figma" => some "https://www.figma.com/oauth?client_id=YOUR_CLIENT_ID&redirect_uri=YOUR_REDIRECT&scope=files:read"
  | "slack" => some "https://slack.com/oauth/v2/authorize?client_id=YOUR_CLIENT_ID&scope=channels:read,chat:write"
  | "linear" => some "https://linear.app/oauth/authorize?client_id=YOUR_CLIENT_ID&response_type=code"
  | "jira" => some "https://auth.atlassian.com/authorize?audience=api.atlassian.com&client_id=YOUR_CLIENT_ID"
  | _ => none

/-- `RaycastAuth.getSetupInstructions` (`src/auth.ts` lines 133-183). -/
def getSetupInstructions (service : String) : String :=
  match service with
  | "raycast" =>
      "\n🚀 Raycast API Setup:\n1. Open Raycast → Preferences → Extensions → \"Developer\"\n2. Create new API key\n3. Add to your .zshrc: export RAYCAST_API_KEY=\"your-key-here\"\n4. Restart terminal\n\n📖 Documentation: https://developers.raycast.com/api-reference\n      "
  | "github" =>
      "\n🐙 GitHub Token Setup:\n1. Go to GitHub Settings → Developer settings → Personal access tokens\n2. Generate new token with repo, user, workflow scopes\n3. Add to your .zshrc: export GITHUB_TOKEN=\"your-token-here\"\n4. Restart terminal\n\n🔗 URL: https://github.com/settings/tokens\n      "
  | "notion" =>
      "\n📝 Notion Integration Setup:\n1. Go to Notion Developers → Create new integration\n2. Copy the Internal Integration Token\n3. Add to your .zshrc: export NOTION_TOKEN=\"your-token-here\"\n4. Share databases/pages with your integration\n\n🔗 URL: https://www.notion.so/my-integrations\n      "
  | "figma" =>
      "\n🎨 Figma Token Setup:\n1. Go to Figma Settings → Account → Personal access tokens\n2. Generate new token\n3. Add to your .zshrc: export FIGMA_TOKEN=\"your-token-here\"\n4. Restart terminal\n\n🔗 URL: https://www.figma.com/developers/api#access-tokens\n      "
  | "slack" =>
      "\n💬 Slack App Setup:\n1. Go to Slack API → Create new app\n2. Configure OAuth scopes and permissions\n3. Install app to workspace\n4. Add to your .zshrc: export SLACK_TOKEN=\"your-bot-token-here\"\n\n🔗 URL: https://api.slack.com/apps\n      "
  | _ => "Setup instructions not available for " ++ service

/-- The per-service report lines of `RaycastAuth.auditIntegrations`
(`src/auth.ts` lines 190-200). -/
def auditServiceLines (cfg : AuthConfig) (service : String) : List String :=
  let hasAuth := hasCredentials cfg service
  let status := if hasAuth then "✅" else "❌"
  let credential := if hasAuth then "Configured" else "Missing"
  [status ++ " " ++ service.toUpper ++ ": " ++ credential] ++
  (if hasAuth then [] else ["   💡 Run: raycast_auth setup " ++ service])

/-- `RaycastAuth.auditIntegrations` (`src/auth.ts` lines 186-211). -/
def auditIntegrations (cfg : AuthConfig) : String :=
  String.intercalate "\n"
    (["🔍 Integration Audit Report:\n"] ++
     (["raycast", "github", "notion", "figma", "slack"].flatMap (auditServiceLines cfg)) ++
     ["\n🚀 Potential Integration Opportunities:",
      "• Linear - Project management",
      "• Jira - Issue tracking",
      "• Confluence - Documentation",
      "• Miro - Collaboration boards",
      "• AWS - Cloud services",
      "• Vercel - Deployment platform"])

/-- `RaycastMCPServer.handleAuthTool` (`src/index.ts` lines 153-219).  The
`setup`, `validate` and `oauth` actions require a truthy `service` and
short-circuit with an error before any external activity.  An unsupported
OAuth service makes `initiateOAuth` throw, caught into the
`Auth action failed` error response. -/
def handleAuthTool (a : Args) (cfg : AuthConfig) (env : Env) : List Invoc × ToolResponse :=
  match a.action with
  | some "setup" =>
      if !(tru a.service) then ([], ⟨"❌ Service parameter required for setup", true⟩)
      else ([], ⟨getSetupInstructions (a.service.getD ""), false⟩)
  | some "validate" =>
      if !(tru a.service) then ([], ⟨"❌ Service parameter required for validation", true⟩)
      else
        let service := a.service.getD ""
        let v := validateCredentials cfg service env.fetch
        let validIcon := if v.valid then "✅" else "❌"
        ([],
         ⟨validIcon ++ " " ++ service.toUpper ++ " Credentials: " ++
          (if v.valid then "Valid" else "Invalid") ++ "\n\n" ++
          (if tru v.error then "Error: " ++ v.error.getD "" else "") ++
          (if tru v.user then "\nUser: " ++ v.user.getD "" else ""), false⟩)
  | some "audit" => ([], ⟨auditIntegrations cfg, false⟩)
  | some "oauth" =>
      if !(tru a.service) then ([], ⟨"❌ Service parameter required for OAuth", true⟩)
      else
        match oauthUrls (a.service.getD "") with
        | none =>
            ([], ⟨"❌ Auth action failed: Unsupported OAuth service: " ++ a.service.getD "", true⟩)
        | some u =>
          let cmd := "open \"" ++ u ++ "\""
          match env.run 0 with
          | .error m => ([Invoc.exec cmd], ⟨"❌ Auth action failed: " ++ m, true⟩)
          | .ok _ =>
              ([Invoc.exec cmd],
               ⟨"🔐 OAuth Flow Initiated for " ++ (a.service.getD "").toUpper ++
                "\n\n🌐 Opening browser: " ++ u ++
                "\n\n📝 Complete the authorization and copy the token to your environment variables.",
                false⟩)
  | _ => ([], ⟨"❌ Unknown auth action: " ++ jsStr a.action, true⟩)

/-- Field access `packageJson[field]` over the five required manifest
fields. -/
def pkgField (p : PkgFields) (f : String) : Option String :=
  match f with
  | "name" => p.name
  | "title" => p.title
  | "description" => p.description
  | "author" => p.author
  | "license" => p.license
  | _ => none

/-- The required Raycast extension manifest fields
(`src/index.ts` line 284). -/
def requiredFields : List String := ["name", "title", "description", "author", "license"]

/-- `RaycastMCPServer.handleExtensionsTool` (`src/index.ts` lines 221-350).
The `publish` action reads `package.json` through `cat` and `JSON.parse`
(the `env.parseJson` oracle); a read or parse failure is caught into the
validation-failed error response. -/
def handleExtensionsTool (a : Args) (env : Env) : List Invoc × ToolResponse :=
  let fail := fun (pre : List Invoc) (m : String) =>
    (pre, ⟨"❌ Extension action failed: " ++ m, true⟩)
  match a.action with
  | some "list" =>
      let cmd := "defaults read com.raycast.macos extensions 2>/dev/null || echo \"No extensions configuration found\""
      match env.run 0 with
      | .error m => fail [Invoc.exec cmd] m
      | .ok out =>
          ([Invoc.exec cmd],
           ⟨"📦 Installed Raycast Extensions:\n\n" ++ jsOrS (some out) "Unable to read extensions list",
            false⟩)
  | some "search" =>
      if !(tru a.query) then ([], ⟨"❌ Query parameter required for search", true⟩)
      else
        let q := a.query.getD ""
        let cmd := "open \"raycast://extensions/store?search=" ++ encodeURIComponent q ++ "\""
        match env.run 0 with
        | .error m => fail [Invoc.exec cmd] m
        | .ok _ =>
            ([Invoc.exec cmd],
             ⟨"🔍 Raycast Store Search: \"" ++ q ++ "\"\n\n✅ Store opened with search results", false⟩)
  | some "install" =>
      if !(tru a.extension_id) then ([], ⟨"❌ Extension ID required for installation", true⟩)
      else
        let eid := a.extension_id.getD ""
        let cmd := "open \"raycast://extensions/store/" ++ eid ++ "\""
        match env.run 0 with
        | .error m => fail [Invoc.exec cmd] m
        | .ok _ =>
            ([Invoc.exec cmd],
             ⟨"📥 Installing Extension: " ++ eid ++ "\n\n✅ Extension page opened for installation",
              false⟩)
  | some "publish" =>
      if !(tru a.publish_path) then ([], ⟨"❌ Publish path required", true⟩)
      else
        let path := a.publish_path.getD ""
        let catCmd := "cat \"" ++ path ++ "/package.json\""
        let invalid := fun (pre : List Invoc) (m : String) =>
          (pre,
           ⟨"❌ Extension validation failed: " ++ m ++
            "\n\nEnsure the path contains a valid Raycast extension with package.json", true⟩)
        match env.run 0 with
        | .error m => invalid [Invoc.exec catCmd] m
        | .ok out =>
          match env.parseJson out with
          | .error m => invalid [Invoc.exec catCmd] m
          | .ok pkg =>
            let raycastConfig := pkg.raycast.getD {}
            let missing := requiredFields.filter
              (fun fld => !(tru (pkgField pkg.fields fld)) && !(tru (pkgField raycastConfig fld)))
            if !missing.isEmpty then
              ([Invoc.exec catCmd],
               ⟨"❌ Extension validation failed. Missing required fields:\n\n" ++
                String.intercalate "\n" (missing.map (fun fld => "• " ++ fld)) ++
                "\n\n📚 See: https://developers.raycast.com/extension-manifest", true⟩)
            else
              ([Invoc.exec catCmd],
               ⟨"🚀 Extension Publishing Guide for \"" ++ jsOr2 pkg.fields.title pkg.fields.name ++
                "\":\n\n" ++
                "1. Ensure your extension is in: " ++ path ++ "\n" ++
                "2. Run: npm run build (if applicable)\n" ++
                "3. Run: npm run publish or ray publish\n" ++
                "4. Submit to Raycast Store: https://raycast.com/contribute\n\n" ++
                "📋 Extension Details:\n" ++
                "• Name: " ++ jsStr pkg.fields.name ++ "\n" ++
                "• Title: " ++ jsOrS pkg.fields.title "N/A" ++ "\n" ++
                "• Description: " ++ jsOrS pkg.fields.description "N/A" ++ "\n" ++
                "• Author: " ++ jsOrS pkg.fields.author "N/A" ++ "\n" ++
                "• License: " ++ jsOrS pkg.fields.license "N/A" ++ "\n\n" ++
                "🔗 Publishing Documentation: https://developers.raycast.com/store/publishing", false⟩)
  | some "update" =>
      let cmd := "open \"raycast://preferences/extensions\""
      match env.run 0 with
      | .error m => fail [Invoc.exec cmd] m
      | .ok _ =>
          ([Invoc.exec cmd],
           ⟨"⬆️ Extension Updates\n\n✅ Extensions preferences opened. Check for available updates.",
            false⟩)
  | _ => ([], ⟨"❌ Unknown extension action: " ++ jsStr a.action, true⟩)

/-- JSON string escaping (quote and backslash) used by the modelled
`JSON.stringify`. -/
def jsonEscape (s : String) : String :=
  s.data.foldl
    (fun acc c =>
      acc ++ (if c = '"' then "\\\"" else if c = '\\' then "\\\\" else String.mk [c]))
    ""

/-- A JSON string literal. -/
def jsonString (s : String) : String := "\"" ++ jsonEscape s ++ "\""

/-- `JSON.stringify` with indent 2 of a flat parameters object nested at
step depth. -/
def paramsJson (ps : List (String × String)) : String :=
  match ps with
  | [] => "\x7b\x7d"
  | _ =>
      "\x7b\n" ++
      String.intercalate ",\n"
        (ps.map (fun p => "        " ++ jsonString p.1 ++ ": " ++ jsonString p.2)) ++
      "\n      \x7d"

/-- One serialized workflow step (`src/index.ts` lines 370-375):
`{id: step_<i+1>, type, action, parameters: step.parameters || {}}`,
undefined fields omitted as `JSON.stringify` does. -/
def stepJson (i : Nat) (st : WStep) : String :=
  "    \x7b\n      \"id\": " ++ jsonString ("step_" ++ toString (i + 1)) ++
  (match st.type with
   | some t => ",\n      \"type\": " ++ jsonString t
   | none => "") ++
  (match st.action with
   | some act => ",\n      \"action\": " ++ jsonString act
   | none => "") ++
  ",\n      \"parameters\": " ++ paramsJson (st.parameters.getD []) ++ "\n    \x7d"

/-- The serialized workflow configuration of the `create` action
(`src/index.ts` lines 367-380), modelling `JSON.stringify(workflow, null, 2)`
with `created = new Date().toISOString()` supplied by the environment. -/
def workflowJson (nm : String) (trigger : Option String) (steps : List WStep)
    (created : String) : String :=
  "\x7b\n  \"name\": " ++ jsonString nm ++
  ",\n  \"trigger\": " ++ jsonString (jsOrS trigger "manual") ++
  ",\n  \"steps\": " ++
  (match steps with
   | [] => "[]"
   | _ =>
       "[\n" ++ String.intercalate ",\n" (steps.enum.map (fun p => stepJson p.1 p.2)) ++
       "\n  ]") ++
  ",\n  \"created\": " ++ jsonString created ++ "\n\x7d"

/-- The static `list` response of `handleWorkflowsTool`
(`src/index.ts` lines 392-408). -/
def workflowsListText : String :=
  "📝 Raycast Workflows:\n\n🔧 Quick Actions:\n• System Sleep → pmset sleepnow\n• Empty Trash → Finder empty trash\n• Screenshot → screencapture workflow\n\n🔗 Integrations:\n• GitHub → Create issue/PR\n• Notion → Quick note\n• Slack → Send message\n\n💡 Create custom workflows with: raycast_workflows create"

/-- `RaycastMCPServer.handleWorkflowsTool` (`src/index.ts` lines 352-472).
`create` requires truthy `name` and a present `steps` array; `execute`
requires a truthy `name` and runs one of the three predefined workflows;
`github-status` throws (caught into the failure response) when no GitHub
credential is configured, its fetched user being the `env.github` oracle. -/
def handleWorkflowsTool (a : Args) (cfg : AuthConfig) (env : Env) : List Invoc × ToolResponse :=
  let failw := fun (pre : List Invoc) (m : String) =>
    (pre, ⟨"❌ Workflow action failed: " ++ m, true⟩)
  match a.action with
  | some "create" =>
      if !(tru a.name) || a.steps.isNone then
        ([], ⟨"❌ Name and steps required for workflow creation", true⟩)
      else
        let nm := a.name.getD ""
        let wjson := workflowJson nm a.trigger (a.steps.getD []) env.now
        ([],
         ⟨"🔧 Workflow Created: \"" ++ nm ++ "\"\n\n📋 Configuration:\n```json\n" ++ wjson ++
          "\n```\n\n💡 To execute: raycast_workflows execute \"" ++ nm ++ "\"\n🔗 Trigger: " ++
          jsOrS a.trigger "manual", false⟩)
  | some "list" => ([], ⟨workflowsListText, false⟩)
  | some "execute" =>
      if !(tru a.name) then ([], ⟨"❌ Workflow name required for execution", true⟩)
      else
        let nm := a.name.getD ""
        if nm = "system-sleep" then
          match env.run 0 with
          | .error m => failw [Invoc.exec "pmset sleepnow"] m
          | .ok _ =>
              ([Invoc.exec "pmset sleepnow"],
               ⟨"⚡ Workflow Executed: \"" ++ nm ++ "\"\n\n💤 System sleep initiated", false⟩)
        else if nm = "empty-trash" then
          let cmd := "osascript -e \"tell application \\\"Finder\\\" to empty the trash\""
          match env.run 0 with
          | .error m => failw [Invoc.exec cmd] m
          | .ok _ =>
              ([Invoc.exec cmd],
               ⟨"⚡ Workflow Executed: \"" ++ nm ++ "\"\n\n🗑️ Trash emptied", false⟩)
        else if nm = "github-status" then
          if !(hasCredentials cfg "github") then failw [] "GitHub credentials not configured"
          else
            match env.github with
            | .error m => failw [] m
            | .ok user =>
                ([],
                 ⟨"⚡ Workflow Executed: \"" ++ nm ++ "\"\n\n👤 GitHub User: " ++ user.1 ++
                  " (" ++ user.2 ++ ")", false⟩)
        else
          ([],
           ⟨"❌ Workflow not found: \"" ++ nm ++
            "\"\n\nAvailable workflows:\n• system-sleep\n• empty-trash\n• github-status", true⟩)
  | _ => ([], ⟨"❌ Unknown workflow action: " ++ jsStr a.action, true⟩)

/-- The nine registered tool names: the three handled directly in
`RaycastMCPServer.setupHandlers` plus the six routed through
`handleToolCall`. -/
def registeredToolNames : List String :=
  ["raycast_auth", "raycast_extensions", "raycast_workflows",
   "raycast_search", "raycast_open", "raycast_clipboard",
   "raycast_shortcut", "raycast_window", "raycast_system"]

/-- `handleToolCall` (`dist/handlers.js` lines 5-33): the switch over the
six direct automation tools; the default case reports the unknown tool. -/
def handleToolCall (nm : String) (a : Args) (env : Env) : List Invoc × ToolResponse :=
  if nm = "raycast_search" then handleRaycastSearch a env
  else if nm = "raycast_open" then handleRaycastOpen a env
  else if nm = "raycast_clipboard" then handleRaycastClipboard a env
  else if nm = "raycast_shortcut" then handleRaycastShortcut a env
  else if nm = "raycast_window" then handleRaycastWindow a env
  else if nm = "raycast_system" then handleRaycastSystem a env
  else ([], ⟨"Unknown tool: " ++ nm, true⟩)

/-- The full dispatch of `RaycastMCPServer.setupHandlers`
(`src/index.ts` lines 135-150): `raycast_auth`, `raycast_extensions` and
`raycast_workflows` are handled in the server, everything else is delegated
to `handleToolCall`. -/
def callTool (nm : String) (a : Args) (cfg : AuthConfig) (env : Env) : List Invoc × ToolResponse :=
  if nm = "raycast_auth" then handleAuthTool a cfg env
  else if nm = "raycast_extensions" then handleExtensionsTool a env
  else if nm = "raycast_workflows" then handleWorkflowsTool a cfg env
  else handleToolCall nm a env

/-- Modelled from the spec: the literal content of a POSIX double-quoted
shell word.  `dqLiteral cs` parses `cs` up to an unescaped closing quote and
returns the text the shell would pass literally, rejecting unquoted `$` or
backquote (command/variable expansion, not literal text) and an unterminated
quote. -/
def dqLiteral : List Char → Option (List Char × List Char)
  | [] => none
  | c :: rest =>
      if c = '"' then some ([], rest)
      else if c = '\\' then
        match rest with
        | [] => none
        | c2 :: rest2 =>
          if c2 = '"' ∨ c2 = '\\' ∨ c2.toNat = 36 ∨ c2.toNat = 96 then
            match dqLiteral rest2 with
            | some (content, r) => some (c2 :: content, r)
            | none => none
          else
            match dqLiteral rest2 with
            | some (content, r) => some ('\\' :: c2 :: content, r)
            | none => none
      else if c.toNat = 36 ∨ c.toNat = 96 then none
      else
        match dqLiteral rest with
        | some (content, r) => some (c :: content, r)
        | none => none

/-- Modelled from the spec: decode the text a shell passes to `pbcopy` for a
command of the shape `echo "<quoted>" | pbcopy`.  Returns `some t` exactly
when the command is a well-formed double-quoted embedding of the literal
text `t`. -/
def decodeEchoPbcopy (cmd : String) : Option String :=
  match cmd.data with
  | 'e' :: 'c' :: 'h' :: 'o' :: ' ' :: '"' :: rest =>
    match dqLiteral rest with
    | some (content, rest2) =>
        if rest2 = (" | pbcopy".data) then some (String.mk content) else none
    | none => none
  | _ => none

/-- C1: for destructive system functions with confirmation enabled, the
system command is executed only when the dialog's trimmed stdout is exactly
`"confirmed"`; on any other dialog outcome no command is executed and the
response is non-error and reports cancellation. -/
theorem system_gate_fail_closed (a : Args) (f : String) (env : Env)
    (hf : a.func = some f) (hd : f ∈ destructiveFuncs)
    (hc : a.confirm.getD true = true) :
    (∀ c, Invoc.exec c ∈ (handleRaycastSystem a env).1 →
        ∃ out, env.run 0 = .ok out ∧ jsTrim out = "confirmed") ∧
    (∀ out, env.run 0 = .ok out → jsTrim out ≠ "confirmed" →
        (handleRaycastSystem a env).1 =
          [Invoc.confirmDialog ("osascript -e '" ++ confirmScript f ++ "'")] ∧
        (handleRaycastSystem a env).2 =
          ⟨"❌ System " ++ f ++ " cancelled by user", false⟩) := by
  obtain ⟨cmd, hcmd⟩ : ∃ cmd, systemCommands f = some cmd := by
    fin_cases hd <;> exact ⟨_, rfl⟩
  have hmem : destructiveFuncs.contains f = true := by
    have hd2 := hd
    fin_cases hd2 <;> rfl
  unfold handleRaycastSystem
  rw [hf]
  simp only [jsStr, hcmd, hc, hmem, Bool.and_self, if_true]
  cases henv : env.run 0 with
  | error m =>
      refine ⟨fun c hcmem => absurd hcmem (by simp), fun out hout _ => absurd hout (by simp)⟩
  | ok out =>
      by_cases htrim : jsTrim out = "confirmed"
      · simp only [htrim, ne_eq, not_true_eq_false, if_false]
        refine ⟨fun c _ => ⟨out, rfl, htrim⟩, fun out2 hout2 hne => ?_⟩
        injection hout2 with h
        subst h
        exact absurd htrim hne
      · simp only [ne_eq, htrim, not_false_eq_true, if_true]
        refine ⟨fun c hcmem => absurd hcmem (by simp), fun out2 hout2 hne => ?_⟩
        injection hout2 with h
        subst h
        exact ⟨trivial, trivial⟩

/-- Witness for C1 at `function = "shutdown"` with a dialog answering
`"cancelled"`: the trace is exactly the dialog and the response is the
non-error cancellation message. -/
theorem system_gate_fail_closed_w :
    (handleRaycastSystem { func := some "shutdown" } (envWith "cancelled")).1 =
      [Invoc.confirmDialog ("osascript -e '" ++ confirmScript "shutdown" ++ "'")] ∧
    (handleRaycastSystem { func := some "shutdown" } (envWith "cancelled")).2 =
      ⟨"❌ System shutdown cancelled by user", false⟩ :=
  (system_gate_fail_closed { func := some "shutdown" } "shutdown" (envWith "cancelled")
    rfl (by decide) rfl).2 "cancelled" rfl (by decide)

/-- C2 (amended): on a timeout (rejection with code `'ETIMEDOUT'`),
`executeRaycastCommand` does not rethrow and returns
`{stdout:'', stderr:<the explanatory timeout message>}`; the result record
has no `timedOut` field. -/
theorem executor_timeout_soft (message : Option String) :
    executeRaycastCommand (.err (some "ETIMEDOUT") message) =
      ⟨"", timeoutMessage⟩ := rfl

/-- C2 counterexample: the claimed `timedOut:true` component does not exist —
a timeout and an ordinary failure whose message equals the timeout text
produce literally identical `ExecResult`s, so no component of the result
(hence no `timedOut` flag) distinguishes them. -/
theorem executor_timeout_indistinct :
    executeRaycastCommand (.err (some "ETIMEDOUT") none) =
      executeRaycastCommand (.err (some "EFAIL") (some timeoutMessage)) := by
  decide

/-- C3 counterexample: a `raycast_clipboard` action outside
`{show, clear, copy, paste}` is silently ignored — no invocation is
performed and the response is a success (`isError` absent), contradicting
the claim that an unknown action always yields an error response. -/
theorem clipboard_unknown_action_silent :
    (handleRaycastClipboard { action := some "frobnicate" } (envWith "")).1 = [] ∧
    (handleRaycastClipboard { action := some "frobnicate" } (envWith "")).2.isError = false := by
  exact ⟨rfl, rfl⟩

/-- C3 (amended): an unknown `raycast_system` function yields an error
response naming it with no invocation, but an unknown `raycast_clipboard`
action falls through the switch silently: no invocation and a success
response. -/
theorem unknown_action_error_or_silent (f act : String) (env env2 : Env)
    (hf : systemCommands f = none)
    (ha : act ∉ ["show", "clear", "copy", "paste"]) :
    handleRaycastSystem { func := some f } env =
      ([], ⟨"❌ Unknown system function: " ++ f, true⟩) ∧
    ((handleRaycastClipboard { action := some act } env2).1 = [] ∧
     (handleRaycastClipboard { action := some act } env2).2.isError = false) := by
  simp only [List.mem_cons, List.mem_singleton, not_or] at ha
  constructor
  · simp [handleRaycastSystem, jsStr, hf]
  · constructor <;>
      simp [handleRaycastClipboard, ha.1, ha.2.1, ha.2.2.1, ha.2.2.2.1]

/-- Witness for C3 at the unknown system function `"explode"` and the
unknown clipboard action `"duplicate"`. -/
theorem unknown_action_error_or_silent_w :
    handleRaycastSystem { func := some "explode" } (envWith "") =
      ([], ⟨"❌ Unknown system function: explode", true⟩) ∧
    ((handleRaycastClipboard { action := some "duplicate" } (envWith "")).1 = [] ∧
     (handleRaycastClipboard { action := some "duplicate" } (envWith "")).2.isError = false) :=
  unknown_action_error_or_silent "explode" "duplicate" (envWith "") (envWith "")
    rfl (by decide)

/-- C4 counterexample: the clipboard `copy` payload is not shell-quoted — for
the text `a"b` the embedded command does not decode back to the text under
POSIX double-quoting semantics (the raw quote terminates the quoted word
early). -/
theorem copy_payload_not_shell_quoted :
    decodeEchoPbcopy (clipCopyCmd "a\"b") ≠ some "a\"b" := by
  decide

/-- Helper: parsing a benign character sequence (no quote, backslash, dollar
or backquote) followed by a closing quote returns exactly that sequence. -/
theorem dqLiteral_append (cs rest : List Char)
    (h : ∀ c ∈ cs, c ≠ '"' ∧ c ≠ '\\' ∧ c.toNat ≠ 36 ∧ c.toNat ≠ 96) :
    dqLiteral (cs ++ '"' :: rest) = some (cs, rest) := by
  induction cs with
  | nil =>
    rw [List.nil_append, dqLiteral.eq_def]
    simp
  | cons c cs ih =>
    have hc := h c (List.mem_cons_self c cs)
    have hrec := ih (fun x hx => h x (List.mem_cons_of_mem c hx))
    rw [List.cons_append, dqLiteral.eq_def]
    simp [hc.1, hc.2.1, hc.2.2.1, hc.2.2.2, hrec]

/-- C4 (amended): the resolver URL-encodes free text destined for a
`raycast://` URL trigger (the search query), but interpolates free text
verbatim — with no shell quoting or escaping — into scripted payloads: the
clipboard `copy` command embeds the text raw, and round-trips under shell
double-quoting only for texts containing none of `"`, `\`, `$`, backquote. -/
theorem resolver_encoding :
    (∀ (q : String) (env : Env),
        (handleRaycastSearch { query := some q } env).1.head? =
          some (Invoc.url ("raycast://script-commands/search?query=" ++ encodeURIComponent q))) ∧
    (∀ t, clipCopyCmd t = "echo \"" ++ t ++ "\" | pbcopy") ∧
    (∀ t, (∀ c ∈ t.data, c ≠ '"' ∧ c ≠ '\\' ∧ c.toNat ≠ 36 ∧ c.toNat ≠ 96) →
        decodeEchoPbcopy (clipCopyCmd t) = some t) := by
  refine ⟨?_, fun t => rfl, ?_⟩
  · intro q env
    unfold handleRaycastSearch
    cases env.run 0 with
    | error m => rfl
    | ok o =>
      cases env.run 1 with
      | error m => rfl
      | ok o2 => rfl
  · intro t ht
    obtain ⟨d⟩ := t
    have hdata : (clipCopyCmd ⟨d⟩).data =
        'e' :: 'c' :: 'h' :: 'o' :: ' ' :: '"' :: (d ++ '"' :: (" | pbcopy".data)) := by
      simp [clipCopyCmd, String.data_append]
    unfold decodeEchoPbcopy
    rw [hdata]
    simp [dqLiteral_append d (" | pbcopy".data) ht]

/-- Witness for C4 at the query `"a b"` and the benign text `"hello"`. -/
theorem resolver_encoding_w :
    (handleRaycastSearch { query := some "a b" } (envWith "")).1.head? =
      some (Invoc.url ("raycast://script-commands/search?query=" ++ encodeURIComponent "a b")) ∧
    decodeEchoPbcopy (clipCopyCmd "hello") = some "hello" :=
  ⟨resolver_encoding.1 "a b" (envWith ""),
   resolver_encoding.2.2 "hello" (by decide)⟩

/-- C5: a request whose name is not among the nine registered tool names
produces the `Unknown tool` error response and performs no external
invocation. -/
theorem unknown_tool_no_invocation (nm : String) (a : Args) (cfg : AuthConfig) (env : Env)
    (h : nm ∉ registeredToolNames) :
    callTool nm a cfg env = ([], ⟨"Unknown tool: " ++ nm, true⟩) := by
  simp only [registeredToolNames, List.mem_cons, List.mem_singleton, not_or] at h
  obtain ⟨h1, h2, h3, h4, h5, h6, h7, h8, h9, -⟩ := h
  simp [callTool, handleToolCall, h1, h2, h3, h4, h5, h6, h7, h8, h9]

/-- Witness for C5 at the unregistered name `"raycast_selfdestruct"`. -/
theorem unknown_tool_no_invocation_w :
    callTool "raycast_selfdestruct" {} cfgEmpty (envWith "") =
      ([], ⟨"Unknown tool: raycast_selfdestruct", true⟩) :=
  unknown_tool_no_invocation "raycast_selfdestruct" {} cfgEmpty (envWith "") (by decide)

/-- C6 counterexample: `raycast_search` is dispatched without its
schema-required `query`, yet the handler performs external invocations (with
the query coerced to `"undefined"`) and returns a success response instead
of an immediate error. -/
theorem search_missing_query_executes :
    (callTool "raycast_search" {} cfgEmpty (envWith "")).1 ≠ [] ∧
    (callTool "raycast_search" {} cfgEmpty (envWith "")).2.isError = false := by
  exact ⟨by decide, rfl⟩

/-- C6 (amended): the required-field checks the handlers actually perform
short-circuit with an immediate error and no external invocation — here the
two cited ones: `raycast_auth` `validate` without a truthy `service`, and
`raycast_clipboard` `copy` without truthy `text`. -/
theorem required_field_short_circuit (a b : Args) (cfg : AuthConfig) (env env2 : Env)
    (ha : a.action = some "validate") (hs : tru a.service = false)
    (hb : b.action = some "copy") (ht : tru b.text = false) :
    handleAuthTool a cfg env = ([], ⟨"❌ Service parameter required for validation", true⟩) ∧
    handleRaycastClipboard b env2 = ([], ⟨"❌ Text is required for copy action", true⟩) := by
  constructor
  · simp [handleAuthTool, ha, hs]
  · simp [handleRaycastClipboard, hb, ht]

/-- Witness for C6 at `validate` with no service and `copy` with no text. -/
theorem required_field_short_circuit_w :
    handleAuthTool { action := some "validate" } cfgEmpty (envWith "") =
      ([], ⟨"❌ Service parameter required for validation", true⟩) ∧
    handleRaycastClipboard { action := some "copy" } (envWith "") =
      ([], ⟨"❌ Text is required for copy action", true⟩) :=
  required_field_short_circuit { action := some "validate" } { action := some "copy" }
    cfgEmpty (envWith "") (envWith "") rfl rfl rfl rfl

/-- Helper: `find?` over modifiers followed by the key returns the key. -/
theorem find?_not_modifier (mods : List String) (k : String)
    (hmods : ∀ m ∈ mods, m ∈ modList)
    (hk : k ∉ modList) :
    (mods ++ [k]).find? (fun x => !(modList.contains x)) = some k := by
  induction mods with
  | nil =>
    rw [List.nil_append]
    apply List.find?_cons_of_pos
    simpa using hk
  | cons m mods ih =>
    have hm := hmods m (List.mem_cons_self m mods)
    rw [List.cons_append, List.find?_cons_of_neg _ (by simpa using hm)]
    exact ih (fun x hx => hmods x (List.mem_cons_of_mem m hx))

/-- Helper: membership of a modifier name in the filtered modifier list of
`mods ++ [k]` coincides with membership in `mods` when `k` is not a
modifier. -/
theorem contains_filter_modifiers (mods : List String) (k x : String)
    (hk : k ∉ modList)
    (hx : x ∈ modList) :
    ((mods ++ [k]).filter (fun s => modList.contains s)).contains x = mods.contains x := by
  have hiff : x ∈ (mods ++ [k]).filter (fun s => modList.contains s) ↔ x ∈ mods := by
    rw [List.mem_filter]
    constructor
    · rintro ⟨hmem, -⟩
      rcases List.mem_append.mp hmem with h | h
      · exact h
      · rcases List.mem_singleton.mp h with rfl
        exact absurd hx hk
    · intro h
      exact ⟨List.mem_append_left _ h, by simpa using hx⟩
  cases h2 : ((mods ++ [k]).filter (fun s => modList.contains s)).contains x with
  | true =>
    have hmx : x ∈ mods := hiff.mp (List.elem_iff.mp h2)
    exact (List.elem_iff.mpr hmx).symm
  | false =>
    cases h1 : mods.contains x with
    | false => rfl
    | true =>
      have hcontr : List.elem x ((mods ++ [k]).filter (fun s => modList.contains s)) = true :=
        List.elem_iff.mpr (hiff.mpr (List.elem_iff.mp h1))
      have h2e : List.elem x ((mods ++ [k]).filter (fun s => modList.contains s)) = false := h2
      exact absurd (hcontr.symm.trans h2e) (by decide)

/-- Helper: the appended-then-trimmed modifier string equals the
comma-intercalated modifier list, for every combination of the four
modifier flags. -/
theorem modifier_build (c s a t : Bool) :
    ((if c then "command down, " else "") ++ (if s then "shift down, " else "") ++
     (if a then "option down, " else "") ++ (if t then "control down, " else "")).dropRight 2 =
    String.intercalate ", "
      ((if c then ["command down"] else []) ++ (if s then ["shift down"] else []) ++
       (if a then ["option down"] else []) ++ (if t then ["control down"] else [])) := by
  cases c <;> cases s <;> cases a <;> cases t <;> decide

/-- C7: for a custom key combination whose tokenization (lower-cased, split
on `+`, trimmed) is a list of recognized modifiers followed by one
non-modifier key, the resolved AppleScript payload keystrokes exactly that
key using exactly the modifiers present in the input, mapped to their
AppleScript names in the fixed order command, shift, option, control. -/
theorem custom_key_payload (ck k : String) (mods : List String)
    (htok : customKeyTokens ck = mods ++ [k])
    (hmods : ∀ m ∈ mods, m ∈ modList)
    (hk : k ∉ modList) :
    customShortcutScript ck =
      "tell application \"System Events\" to keystroke \"" ++ k ++ "\" using \x7b" ++
      String.intercalate ", "
        ((if mods.contains "cmd" then ["command down"] else []) ++
         (if mods.contains "shift" then ["shift down"] else []) ++
         (if mods.contains "alt" then ["option down"] else []) ++
         (if mods.contains "ctrl" then ["control down"] else [])) ++ "\x7d" := by
  unfold customShortcutScript appleModifierString customKeyModifiers customKeyKey
  rw [htok, find?_not_modifier mods k hmods hk,
    contains_filter_modifiers mods k "cmd" hk (by decide),
    contains_filter_modifiers mods k "shift" hk (by decide),
    contains_filter_modifiers mods k "alt" hk (by decide),
    contains_filter_modifiers mods k "ctrl" hk (by decide),
    modifier_build]
  rfl

/-- Witness for C7 at the combination `"cmd+shift+c"`. -/
theorem custom_key_payload_w :
    customShortcutScript "cmd+shift+c" =
      "tell application \"System Events\" to keystroke \"" ++ "c" ++ "\" using \x7b" ++
      String.intercalate ", "
        ((if (["cmd", "shift"] : List String).contains "cmd" then ["command down"] else []) ++
         (if (["cmd", "shift"] : List String).contains "shift" then ["shift down"] else []) ++
         (if (["cmd", "shift"] : List String).contains "alt" then ["option down"] else []) ++
         (if (["cmd", "shift"] : List String).contains "ctrl" then ["control down"] else [])) ++
      "\x7d" :=
  custom_key_payload "cmd+shift+c" "c" ["cmd", "shift"] (by decide) (by decide) (by decide)

/-- C8: command resolution is a pure, deterministic function of the
arguments.  The invocation traces of `handleRaycastOpen` and
`handleRaycastShortcut` do not depend on the environment at all, and every
command `handleRaycastSystem` executes is exactly the static
`systemCommands` table entry for its `function` argument. -/
theorem resolution_deterministic :
    (∀ (a : Args) (env1 env2 : Env),
        (handleRaycastOpen a env1).1 = (handleRaycastOpen a env2).1) ∧
    (∀ (a : Args) (env1 env2 : Env),
        (handleRaycastShortcut a env1).1 = (handleRaycastShortcut a env2).1) ∧
    (∀ (a : Args) (env : Env) (c : String),
        Invoc.exec c ∈ (handleRaycastSystem a env).1 →
        systemCommands (jsStr a.func) = some c) := by
  refine ⟨?_, ?_, ?_⟩
  · intro a env1 env2
    unfold handleRaycastOpen
    by_cases hc : tru a.command <;> by_cases he : tru a.extension <;>
      simp only [hc, he, if_true, if_false, Bool.false_eq_true] <;>
      cases env1.run 0 <;> cases env2.run 0 <;> rfl
  · intro a env1 env2
    unfold handleRaycastShortcut
    by_cases hc : tru a.custom_key <;> by_cases hs : tru a.shortcut <;>
      simp only [hc, hs, if_true, if_false, Bool.false_eq_true] <;>
      first
        | (cases env1.run 0 <;> cases env2.run 0 <;> rfl)
        | (cases shortcutsTable (a.shortcut.getD "") <;>
            cases env1.run 0 <;> cases env2.run 0 <;> rfl)
  · intro a env c hmem
    simp only [handleRaycastSystem] at hmem
    split at hmem
    · simp at hmem
    · rename_i cmd hsc
      split at hmem
      · split at hmem
        · simp at hmem
        · split at hmem
          · simp at hmem
          · split at hmem <;> simp at hmem <;> (subst hmem; exact hsc)
      · split at hmem <;> simp at hmem <;> (subst hmem; exact hsc)

/-- Witness for C8: identical traces under different environments and the
executed `sleep` command matching the table. -/
theorem resolution_deterministic_w :
    (handleRaycastOpen { command := some "emoji" } (envWith "")).1 =
      (handleRaycastOpen { command := some "emoji" } { run := fun _ => .error "boom" }).1 ∧
    (handleRaycastShortcut { shortcut := some "calculator" } (envWith "")).1 =
      (handleRaycastShortcut { shortcut := some "calculator" } { run := fun _ => .error "boom" }).1 ∧
    systemCommands (jsStr (({ func := some "sleep" } : Args)).func) = some "pmset sleepnow" :=
  ⟨resolution_deterministic.1 { command := some "emoji" } (envWith "")
      { run := fun _ => .error "boom" },
   resolution_deterministic.2.1 { shortcut := some "calculator" } (envWith "")
      { run := fun _ => .error "boom" },
   resolution_deterministic.2.2 { func := some "sleep" } (envWith "") "pmset sleepnow"
      (by decide)⟩

/-- C9: `hasCredentials` is true exactly when `getCredential` returns a
defined, non-empty credential; outside the seven known services
`hasCredentials` is false and `getCredential` is undefined. -/
theorem credentials_iff (cfg : AuthConfig) (service : String) :
    (hasCredentials cfg service = true ↔
      ∃ s, getCredential cfg service = some s ∧ s ≠ "") ∧
    (service ∉ ["raycast", "github", "notion", "figma", "slack", "linear", "jira"] →
      hasCredentials cfg service = false ∧ getCredential cfg service = none) := by
  constructor
  · unfold hasCredentials getCredential
    cases hsm : serviceMap service with
    | none => simp
    | some key =>
      cases hkey : key cfg with
      | none => simp [tru, hkey]
      | some v => simp [tru, hkey]
  · intro hserv
    have hnone : serviceMap service = none := by
      simp only [List.mem_cons, List.mem_singleton, not_or] at hserv
      unfold serviceMap
      split
      all_goals first | rfl | (exfalso; simp_all)
    simp [hasCredentials, getCredential, hnone]

/-- Witness for C9 at the empty configuration and the unknown service
`"stripe"`. -/
theorem credentials_iff_w :
    (hasCredentials cfgEmpty "stripe" = true ↔
      ∃ s, getCredential cfgEmpty "stripe" = some s ∧ s ≠ "") ∧
    (hasCredentials cfgEmpty "stripe" = false ∧ getCredential cfgEmpty "stripe" = none) :=
  ⟨(credentials_iff cfgEmpty "stripe").1,
   (credentials_iff cfgEmpty "stripe").2 (by decide)⟩

/-- C10: a `raycast_shortcut` request providing neither `shortcut` nor
`custom_key` skips both branches: no external invocation, and a success
response (`isError` absent) whose text claims a shortcut (`undefined`) was
triggered. -/
theorem shortcut_no_args_success (env : Env) :
    handleRaycastShortcut {} env =
      ([], ⟨"⌨️ Shortcut Triggered: undefined\n\n✅ Shortcut executed successfully", false⟩) := rfl
